import Mathlib

/-!
# Verification of the MCP server configuration routes

A shallow embedding of `src/server/routes/mcpServers.ts`.

JavaScript plain objects used as string-keyed maps (`Record<string, T>`)
are modelled as ordered association lists `List (String × T)`: JS objects
with string keys preserve insertion order, property write updates in place
or appends, and `delete` removes the key.

The built-in registry `MCP_SERVERS_BY_PROVIDER['anthropic']` is imported
from outside this module and is a read-only external collaborator; it is
modelled as an abstract parameter `builtin : Registry`.

File system effects are modelled by parameters: `loadMCPConfig` takes the
outcome of reading and parsing the overlay file (`none` for any read or
parse failure, `some cfg` for a successful parse), and each mutating route
returns the configuration it saves.  The network call of the `/test` route
is modelled by a `FetchOutcome` parameter.
-/

namespace MCP

/-- Tag of the `MCPServerConfig` union (`'http' | 'stdio'`). -/
inductive ConfigType where
  | http
  | stdio
deriving DecidableEq, Repr

/-- The `MCPServerConfig` union: `MCPHttpServerConfig` carries an optional
display name, a URL and optional headers; `MCPStdioServerConfig` carries an
optional display name, a command, optional args and optional env. -/
inductive MCPServerConfig where
  | http (name : Option String) (url : String) (headers : Option (List (String × String)))
  | stdio (name : Option String) (command : String) (args : Option (List String))
      (env : Option (List (String × String)))
deriving DecidableEq, Repr

/-- The persisted overlay (`MCPServersConfig` in the source): the `enabled`
flag map and the `custom` server map. -/
structure MCPServersConfig where
  enabled : List (String × Bool)
  custom : List (String × MCPServerConfig)
deriving DecidableEq, Repr

/-- The built-in registry (`MCP_SERVERS_BY_PROVIDER['anthropic'] || {}`). -/
abbrev Registry := List (String × MCPServerConfig)

/-- JS object property read `m[k]`: first (unique) binding of the key. -/
def lookupKey {α : Type} : List (String × α) → String → Option α
  | [], _ => none
  | (k', v) :: rest, k => if k' = k then some v else lookupKey rest k

/-- JS object property write `m[k] = v`: update in place when the key is
present, append otherwise. -/
def setKey {α : Type} : List (String × α) → String → α → List (String × α)
  | [], k, v => [(k, v)]
  | (k', v') :: rest, k, v =>
      if k' = k then (k, v) :: rest else (k', v') :: setKey rest k v

/-- JS `delete m[k]`: remove the binding of the key. -/
def delKey {α : Type} : List (String × α) → String → List (String × α)
  | [], _ => []
  | (k', v') :: rest, k =>
      if k' = k then delKey rest k else (k', v') :: delKey rest k

/-- `loadMCPConfig`: parse the overlay file; on any failure (missing,
unreadable or unparseable file) catch and return the default overlay with
every built-in identifier enabled and no custom entries. -/
def loadMCPConfig (builtin : Registry) (fileContents : Option MCPServersConfig) :
    MCPServersConfig :=
  match fileContents with
  | some cfg => cfg
  | none => { enabled := builtin.map (fun p => (p.1, true)), custom := [] }

/-- `id.charAt(0).toUpperCase()` concatenated with `id.slice(1)` in which
every hyphen is replaced by a space (the global-regex replace). -/
def humanize (id : String) : String :=
  match id.data with
  | [] => ""
  | c :: rest => String.mk (c.toUpper :: rest.map (fun ch => if ch = '-' then ' ' else ch))

/-- JS `s || d` for an optional string `s`: `d` when `s` is absent or empty. -/
def strOr (s : Option String) (d : String) : String :=
  match s with
  | none => d
  | some v => if v = "" then d else v

/-- One element of the array built by `getAllServers`. -/
structure ServerDescriptor where
  id : String
  name : String
  type : ConfigType
  url : Option String
  command : Option String
  args : Option (List String)
  enabled : Bool
  builtin : Bool
deriving DecidableEq, Repr

/-- `serverConfig.type`. -/
def configTypeOf : MCPServerConfig → ConfigType
  | .http _ _ _ => .http
  | .stdio _ _ _ _ => .stdio

/-- `serverConfig.name` (both variants have the optional field). -/
def configName : MCPServerConfig → Option String
  | .http n _ _ => n
  | .stdio n _ _ _ => n

/-- `serverConfig.type === 'http' ? serverConfig.url : undefined`. -/
def httpUrl : MCPServerConfig → Option String
  | .http _ u _ => some u
  | .stdio _ _ _ _ => none

/-- `serverConfig.type === 'stdio' ? serverConfig.command : undefined`. -/
def stdioCommand : MCPServerConfig → Option String
  | .http _ _ _ => none
  | .stdio _ c _ _ => some c

/-- `serverConfig.type === 'stdio' ? serverConfig.args : undefined`. -/
def stdioArgs : MCPServerConfig → Option (List String)
  | .http _ _ _ => none
  | .stdio _ _ a _ => a

/-- `config.enabled[id] ?? true`. -/
def effectiveEnabled (cfg : MCPServersConfig) (id : String) : Bool :=
  (lookupKey cfg.enabled id).getD true

/-- The descriptor pushed for a built-in entry in `getAllServers`. -/
def builtinDescriptor (cfg : MCPServersConfig) (p : String × MCPServerConfig) :
    ServerDescriptor :=
  { id := p.1
    name := humanize p.1
    type := configTypeOf p.2
    url := httpUrl p.2
    command := stdioCommand p.2
    args := stdioArgs p.2
    enabled := effectiveEnabled cfg p.1
    builtin := true }

/-- The descriptor pushed for a custom entry in `getAllServers`. -/
def customDescriptor (cfg : MCPServersConfig) (p : String × MCPServerConfig) :
    ServerDescriptor :=
  { id := p.1
    name := strOr (configName p.2) p.1
    type := configTypeOf p.2
    url := httpUrl p.2
    command := stdioCommand p.2
    args := stdioArgs p.2
    enabled := effectiveEnabled cfg p.1
    builtin := false }

/-- `getAllServers`: push one descriptor per built-in registry entry, then
one per custom overlay entry. -/
def getAllServers (builtin : Registry) (cfg : MCPServersConfig) :
    List ServerDescriptor :=
  builtin.map (builtinDescriptor cfg) ++ cfg.custom.map (customDescriptor cfg)

/-- Response body of `POST /api/mcp-servers/:id/toggle`. -/
structure ToggleResponse where
  success : Bool
  id : String
  enabled : Bool
deriving DecidableEq, Repr

/-- The toggle route: flip `config.enabled[id] ?? true`, save, and answer
with the value now stored at `config.enabled[id]`. -/
def toggleServer (cfg : MCPServersConfig) (id : String) :
    MCPServersConfig × ToggleResponse :=
  let currentState := (lookupKey cfg.enabled id).getD true
  let newEnabled := setKey cfg.enabled id (!currentState)
  ({ cfg with enabled := newEnabled },
   { success := true, id := id, enabled := (lookupKey newEnabled id).getD true })

/-- Result of `DELETE /api/mcp-servers/:id`: an error response with its
HTTP status, or success carrying the saved overlay and the id echoed in
the response body. -/
inductive DeleteResult where
  | failure (status : Nat) (error : String)
  | success (saved : MCPServersConfig) (id : String)
deriving DecidableEq, Repr

/-- The delete route: `!config.custom[id]` rejects (a present record is
always truthy), otherwise delete the key from both maps and save. -/
def deleteServer (cfg : MCPServersConfig) (id : String) : DeleteResult :=
  match lookupKey cfg.custom id with
  | none => .failure 400 "Cannot delete built-in MCP servers"
  | some _ =>
      .success { enabled := delKey cfg.enabled id, custom := delKey cfg.custom id } id

/-- The parsed JSON body of `POST /api/mcp-servers`.  Absent JSON fields
are `none`; `type` is `none` when absent (the route only reads it through
truthiness and the two tag comparisons). -/
structure CreateBody where
  id : Option String
  name : Option String
  type : Option ConfigType
  url : Option String
  headers : Option (List (String × String))
  command : Option String
  args : Option (List String)
  env : Option (List (String × String))
deriving DecidableEq, Repr

/-- JS falsiness of an optional string: `undefined` and `""` are falsy. -/
def falsyStr : Option String → Bool
  | none => true
  | some s => s == ""

/-- Membership in the character class `[a-z0-9-]`. -/
def validIdChar (c : Char) : Bool :=
  (decide ('a' ≤ c) && decide (c ≤ 'z')) || (decide ('0' ≤ c) && decide (c ≤ '9')) || c == '-'

/-- The test `/^[a-z0-9-]+$/.test(id)`. -/
def validId (s : String) : Bool :=
  !(s == "") && s.data.all validIdChar

/-- The custom record stored by a successful create: the `type === 'http'`
branch keeps name, url and headers; the `else` branch keeps name, command,
args and env. -/
def customConfigOf (b : CreateBody) : MCPServerConfig :=
  match b.type with
  | some .http => .http b.name (b.url.getD "") b.headers
  | _ => .stdio b.name (b.command.getD "") b.args b.env

/-- Result of `POST /api/mcp-servers`: an error response with its HTTP
status, or success carrying the saved overlay and the id echoed in the
response body. -/
inductive CreateResult where
  | failure (status : Nat) (error : String)
  | success (saved : MCPServersConfig) (id : String)
deriving DecidableEq, Repr

/-- The create route: the four validation checks, the existence check
against built-in and custom ids, then the insert of the variant record,
`config.enabled[id] = true` and the save. -/
def createServer (builtin : Registry) (cfg : MCPServersConfig) (b : CreateBody) :
    CreateResult :=
  if falsyStr b.id || b.type.isNone then
    .failure 400 "Missing required fields: id, type"
  else if b.type == some .http && falsyStr b.url then
    .failure 400 "HTTP servers require a URL"
  else if b.type == some .stdio && falsyStr b.command then
    .failure 400 "Stdio servers require a command"
  else if !validId (b.id.getD "") then
    .failure 400 "Server ID must be lowercase alphanumeric with dashes"
  else if (lookupKey builtin (b.id.getD "")).isSome
      || (lookupKey cfg.custom (b.id.getD "")).isSome then
    .failure 400 "MCP server with this ID already exists"
  else
    .success
      { enabled := setKey cfg.enabled (b.id.getD "") true
        custom := setKey cfg.custom (b.id.getD "") (customConfigOf b) }
      (b.id.getD "")

/-- Outcome of the `fetch` in the test route: an HTTP response with a
status code, or a thrown transport-level error carrying its message. -/
inductive FetchOutcome where
  | status (code : Nat)
  | failure (message : String)
deriving DecidableEq, Repr

/-- Response of `POST /api/mcp-servers/:id/test`: HTTP status of the
response plus the JSON payload fields. -/
structure TestResponse where
  status : Nat
  success : Bool
  error : Option String
  message : Option String
deriving DecidableEq, Repr

/-- `builtinServers[id] || config.custom[id]`. -/
def resolveServer (builtin : Registry) (cfg : MCPServersConfig) (id : String) :
    Option MCPServerConfig :=
  match lookupKey builtin id with
  | some sc => some sc
  | none => lookupKey cfg.custom id

/-- `response.ok`: status in the range 200–299. -/
def responseOk (code : Nat) : Bool :=
  200 ≤ code && code ≤ 299

/-- The test route: 404 when the id resolves in neither map; for an http
record, classify the fetch outcome; for a stdio record, succeed without
further checks. -/
def testServer (builtin : Registry) (cfg : MCPServersConfig) (id : String)
    (fetchResult : FetchOutcome) : TestResponse :=
  match resolveServer builtin cfg id with
  | none => { status := 404, success := false, error := some "Server not found", message := none }
  | some (.http _ _ _) =>
      match fetchResult with
      | .status code =>
          if responseOk code || code == 404 || code == 405 then
            { status := 200, success := true, error := none, message := none }
          else
            { status := 200, success := false
              error := some ("Server returned status " ++ toString code), message := none }
      | .failure msg =>
          { status := 200, success := false, error := some msg, message := none }
  | some (.stdio _ _ _ _) =>
      { status := 200, success := true, error := none
        message := some "Stdio server configuration validated" }

/-- The rejection condition of the Create operation as the spec states
it: `id` or `type` missing, `type` http with `url` missing, `type` stdio
with `command` missing, identifier not matching the lowercase
alphanumeric-and-dashes format, or identifier already existing among the
built-in or custom identifiers.  Stated from the spec for comparison with
`createServer`. -/
def createRejects (builtin : Registry) (cfg : MCPServersConfig) (b : CreateBody) : Bool :=
  (falsyStr b.id || b.type.isNone)
  || (b.type == some ConfigType.http && falsyStr b.url)
  || (b.type == some ConfigType.stdio && falsyStr b.command)
  || !validId (b.id.getD "")
  || decide ((b.id.getD "") ∈ builtin.map Prod.fst)
  || decide ((b.id.getD "") ∈ cfg.custom.map Prod.fst)

/-! ## Association-list lemmas (JS object semantics) -/

theorem lookupKey_setKey_self {α : Type} (m : List (String × α)) (k : String) (v : α) :
    lookupKey (setKey m k v) k = some v := by
  induction m with
  | nil => simp [setKey, lookupKey]
  | cons p rest ih =>
      obtain ⟨k', v'⟩ := p
      by_cases h : k' = k
      · simp [setKey, h, lookupKey]
      · simp [setKey, h, lookupKey, ih]

theorem lookupKey_setKey_ne {α : Type} (m : List (String × α)) (k k' : String) (v : α)
    (h : k' ≠ k) : lookupKey (setKey m k v) k' = lookupKey m k' := by
  induction m with
  | nil => simp [setKey, lookupKey, Ne.symm h]
  | cons p rest ih =>
      obtain ⟨k₀, v₀⟩ := p
      by_cases h₀ : k₀ = k
      · subst h₀
        simp [setKey, lookupKey, Ne.symm h]
      · simp [setKey, h₀, lookupKey, ih]

theorem lookupKey_delKey_self {α : Type} (m : List (String × α)) (k : String) :
    lookupKey (delKey m k) k = none := by
  induction m with
  | nil => simp [delKey, lookupKey]
  | cons p rest ih =>
      obtain ⟨k', v'⟩ := p
      by_cases h : k' = k
      · simp [delKey, h, ih]
      · simp [delKey, h, lookupKey, ih]

theorem lookupKey_delKey_ne {α : Type} (m : List (String × α)) (k k' : String)
    (h : k' ≠ k) : lookupKey (delKey m k) k' = lookupKey m k' := by
  induction m with
  | nil => simp [delKey]
  | cons p rest ih =>
      obtain ⟨k₀, v₀⟩ := p
      by_cases h₀ : k₀ = k
      · subst h₀
        simp [delKey, lookupKey, Ne.symm h, ih]
      · simp [delKey, h₀, lookupKey, ih]

theorem lookupKey_isSome_iff_mem {α : Type} (m : List (String × α)) (k : String) :
    (lookupKey m k).isSome = true ↔ k ∈ m.map Prod.fst := by
  induction m with
  | nil => simp [lookupKey]
  | cons p rest ih =>
      obtain ⟨k', v'⟩ := p
      by_cases h : k' = k
      · simp [lookupKey, h]
      · simp [lookupKey, h, ih, Ne.symm h]

theorem lookupKey_map_const_true {α : Type} (m : List (String × α)) (k : String)
    (h : k ∈ m.map Prod.fst) :
    lookupKey (m.map (fun p => (p.1, true))) k = some true := by
  induction m with
  | nil => simp at h
  | cons p rest ih =>
      by_cases hk : p.1 = k
      · simp [lookupKey, hk]
      · rcases (List.mem_cons).mp h with h₀ | h₀
        · exact absurd h₀.symm hk
        · simp [lookupKey, hk, ih h₀]

/-! ## Claim theorems -/

/-- C5: Toggle sets `enabled[id]` to the negation of the current
effective-enabled value (default true when absent), leaves `custom` and
every other `enabled` entry unchanged, saves, and responds
`{success: true, id, enabled: <new state>}`. -/
theorem toggleServer_spec (cfg : MCPServersConfig) (id : String) :
    (toggleServer cfg id).2 =
      { success := true, id := id, enabled := !(effectiveEnabled cfg id) }
    ∧ (toggleServer cfg id).1.custom = cfg.custom
    ∧ lookupKey (toggleServer cfg id).1.enabled id = some (!(effectiveEnabled cfg id))
    ∧ ∀ k, k ≠ id → lookupKey (toggleServer cfg id).1.enabled k = lookupKey cfg.enabled k := by
  refine ⟨?_, rfl, ?_, ?_⟩
  · simp [toggleServer, effectiveEnabled, lookupKey_setKey_self]
  · simp [toggleServer, effectiveEnabled, lookupKey_setKey_self]
  · intro k hk
    simp [toggleServer, lookupKey_setKey_ne _ _ _ _ hk]

/-- Witness for C5 at a concrete overlay. -/
theorem toggleServer_spec_witness :
    lookupKey (toggleServer { enabled := [("a", true)], custom := [] } "a").1.enabled "b"
      = lookupKey [("a", true)] "b" :=
  (toggleServer_spec { enabled := [("a", true)], custom := [] } "a").2.2.2 "b" (by decide)

/-- C8: toggling the same identifier twice, the second toggle starting
from the overlay saved by the first, restores the identifier's
effective-enabled value. -/
theorem toggle_twice_spec (cfg : MCPServersConfig) (id : String) :
    effectiveEnabled (toggleServer (toggleServer cfg id).1 id).1 id
      = effectiveEnabled cfg id := by
  simp [toggleServer, effectiveEnabled, lookupKey_setKey_self]

/-- C9: Toggle performs no existence check: on an identifier known to
neither registry and with no prior `enabled` entry it persists
`enabled[id] = false` and responds `{success: true, id, enabled: false}`. -/
theorem toggle_unknown_spec (builtin : Registry) (cfg : MCPServersConfig) (id : String)
    (_hb : lookupKey builtin id = none) (_hc : lookupKey cfg.custom id = none)
    (he : lookupKey cfg.enabled id = none) :
    (toggleServer cfg id).2 = { success := true, id := id, enabled := false }
    ∧ lookupKey (toggleServer cfg id).1.enabled id = some false := by
  constructor
  · simp [toggleServer, he, lookupKey_setKey_self]
  · simp [toggleServer, he, lookupKey_setKey_self]

/-- Witness for C9 at a concrete empty registry and overlay. -/
theorem toggle_unknown_spec_witness :
    (toggleServer { enabled := [], custom := [] } "ghost").2
      = { success := true, id := "ghost", enabled := false }
    ∧ lookupKey (toggleServer { enabled := [], custom := [] } "ghost").1.enabled "ghost"
      = some false :=
  toggle_unknown_spec [] { enabled := [], custom := [] } "ghost" rfl rfl rfl

/-- C7: on any read or parse failure `loadMCPConfig` returns the default
overlay: `enabled` holds `true` for every built-in identifier and
`custom` is empty. -/
theorem loadMCPConfig_default_spec (builtin : Registry) (id : String)
    (h : id ∈ builtin.map Prod.fst) :
    lookupKey (loadMCPConfig builtin none).enabled id = some true
    ∧ (loadMCPConfig builtin none).custom = [] := by
  exact ⟨lookupKey_map_const_true builtin id h, rfl⟩

/-- Witness for C7 at a concrete one-entry registry. -/
theorem loadMCPConfig_default_spec_witness :
    lookupKey
        (loadMCPConfig [("code-search", MCPServerConfig.http none "https://cs" none)] none).enabled
        "code-search" = some true
    ∧ (loadMCPConfig [("code-search", MCPServerConfig.http none "https://cs" none)] none).custom
        = [] :=
  loadMCPConfig_default_spec [("code-search", MCPServerConfig.http none "https://cs" none)]
    "code-search" (by decide)

/-- C4: Delete rejects with HTTP 400 exactly when the identifier is not a
key of `custom`; otherwise it removes the identifier from both `custom`
and `enabled`, leaves every other binding unchanged, and responds
`{success: true, id}` with the saved overlay. -/
theorem deleteServer_spec (cfg : MCPServersConfig) (id : String) :
    (lookupKey cfg.custom id = none →
      deleteServer cfg id = .failure 400 "Cannot delete built-in MCP servers")
    ∧ (∀ v, lookupKey cfg.custom id = some v →
        ∃ saved, deleteServer cfg id = .success saved id
          ∧ lookupKey saved.custom id = none
          ∧ lookupKey saved.enabled id = none
          ∧ ∀ k, k ≠ id → lookupKey saved.custom k = lookupKey cfg.custom k
              ∧ lookupKey saved.enabled k = lookupKey cfg.enabled k) := by
  constructor
  · intro h
    simp [deleteServer, h]
  · intro v hv
    refine ⟨{ enabled := delKey cfg.enabled id, custom := delKey cfg.custom id },
      by simp [deleteServer, hv], lookupKey_delKey_self _ _, lookupKey_delKey_self _ _, ?_⟩
    intro k hk
    exact ⟨lookupKey_delKey_ne _ _ _ hk, lookupKey_delKey_ne _ _ _ hk⟩

/-- Witness for C4: deleting an identifier absent from `custom` (here any
built-in identifier) fails with the 400 error. -/
theorem deleteServer_spec_witness :
    deleteServer { enabled := [("web-search", true)], custom := [] } "web-search"
      = .failure 400 "Cannot delete built-in MCP servers" :=
  (deleteServer_spec { enabled := [("web-search", true)], custom := [] } "web-search").1 rfl

/-! ## Counting helpers for the merged listing -/

theorem filter_map_of_false {α β : Type} (f : α → β) (p : β → Bool) (l : List α)
    (h : ∀ x ∈ l, p (f x) = false) : (l.map f).filter p = [] := by
  induction l with
  | nil => rfl
  | cons x xs ih =>
      simp [List.filter_cons, h x (List.mem_cons_self x xs),
        ih (fun y hy => h y (List.mem_cons_of_mem x hy))]

theorem length_filter_map_key {α β : Type} (f : (String × α) → β) (p : β → Bool)
    (l : List (String × α)) (k : String)
    (h : ∀ x, p (f x) = (x.1 == k)) (hnd : (l.map Prod.fst).Nodup)
    (hk : k ∈ l.map Prod.fst) :
    ((l.map f).filter p).length = 1 := by
  induction l with
  | nil => simp at hk
  | cons x xs ih =>
      simp only [List.map_cons, List.nodup_cons] at hnd
      obtain ⟨hx, hnd'⟩ := hnd
      by_cases hxk : x.1 = k
      · have hrest : ((xs.map f).filter p) = [] := by
          apply filter_map_of_false
          intro y hy
          rw [h y]
          have : y.1 ≠ k := by
            intro hcon
            have hmem : y.1 ∈ xs.map Prod.fst := List.mem_map_of_mem Prod.fst hy
            rw [hcon, ← hxk] at hmem
            exact hx hmem
          simp [this]
        simp [List.filter_cons, h x, hxk, hrest]
      · have hk' : k ∈ xs.map Prod.fst := by
          rcases (List.mem_cons).mp hk with h₀ | h₀
          · exact absurd h₀.symm hxk
          · exact h₀
        simp [List.filter_cons, h x, hxk, ih hnd' hk']

/-- C2: the merged listing is the built-in descriptors in registry order
followed by the custom descriptors in overlay order, with the stated
fields; each builtin (resp. custom) identifier contributes exactly one
descriptor; with no overlay file every descriptor is a built-in one with
effective-enabled true. -/
theorem getAllServers_spec (builtin : Registry) (cfg : MCPServersConfig)
    (hb : (builtin.map Prod.fst).Nodup) (hc : (cfg.custom.map Prod.fst).Nodup) :
    getAllServers builtin cfg
      = builtin.map (fun p =>
          { id := p.1, name := humanize p.1, type := configTypeOf p.2,
            url := httpUrl p.2, command := stdioCommand p.2, args := stdioArgs p.2,
            enabled := (lookupKey cfg.enabled p.1).getD true, builtin := true })
        ++ cfg.custom.map (fun p =>
          { id := p.1, name := strOr (configName p.2) p.1, type := configTypeOf p.2,
            url := httpUrl p.2, command := stdioCommand p.2, args := stdioArgs p.2,
            enabled := (lookupKey cfg.enabled p.1).getD true, builtin := false })
    ∧ (∀ k ∈ builtin.map Prod.fst,
        ((getAllServers builtin cfg).filter (fun d => d.id == k && d.builtin)).length = 1)
    ∧ (∀ k ∈ cfg.custom.map Prod.fst,
        ((getAllServers builtin cfg).filter (fun d => d.id == k && !d.builtin)).length = 1)
    ∧ (∀ d ∈ getAllServers builtin (loadMCPConfig builtin none),
        d.builtin = true ∧ d.enabled = true) := by
  refine ⟨rfl, ?_, ?_, ?_⟩
  · intro k hk
    have hcustom : ((cfg.custom.map (customDescriptor cfg)).filter
        (fun d => d.id == k && d.builtin)) = [] := by
      apply filter_map_of_false
      intro y _
      simp [customDescriptor]
    rw [getAllServers, List.filter_append, hcustom, List.append_nil]
    exact length_filter_map_key _ _ _ _ (by intro x; simp [builtinDescriptor]) hb hk
  · intro k hk
    have hbuiltin : ((builtin.map (builtinDescriptor cfg)).filter
        (fun d => d.id == k && !d.builtin)) = [] := by
      apply filter_map_of_false
      intro y _
      simp [builtinDescriptor]
    rw [getAllServers, List.filter_append, hbuiltin, List.nil_append]
    exact length_filter_map_key _ _ _ _ (by intro x; simp [customDescriptor]) hc hk
  · intro d hd
    simp only [getAllServers, loadMCPConfig, List.map_nil, List.append_nil,
      List.mem_map] at hd
    obtain ⟨p, hp, rfl⟩ := hd
    refine ⟨rfl, ?_⟩
    simp [builtinDescriptor, effectiveEnabled,
      lookupKey_map_const_true _ _ (List.mem_map_of_mem Prod.fst hp)]

/-- Witness for C2 at a concrete registry and overlay. -/
theorem getAllServers_spec_witness :
    ((getAllServers [("web-search", MCPServerConfig.http (some "Web") "https://w" none)]
        { enabled := [("web-search", false)],
          custom := [("mine", MCPServerConfig.stdio none "run" none none)] }).filter
      (fun d => d.id == "web-search" && d.builtin)).length = 1 :=
  (getAllServers_spec [("web-search", MCPServerConfig.http (some "Web") "https://w" none)]
      { enabled := [("web-search", false)],
        custom := [("mine", MCPServerConfig.stdio none "run" none none)] }
      (by decide) (by decide)).2.1 "web-search" (by decide)

/-- C6: the probe reports success for an http record exactly on status
200–299, 404 or 405; any other status yields a 200-status
`{success: false}` payload carrying the code in the error message; a
transport failure yields a 200-status `{success: false}` payload carrying
the error message; a stdio record succeeds unconditionally; an unresolved
identifier yields the 404 not-found failure. -/
theorem probe_ok_iff (code : Nat) :
    (responseOk code || code == 404 || code == 405) = true ↔
      ((200 ≤ code ∧ code ≤ 299) ∨ code = 404 ∨ code = 405) := by
  simp only [responseOk, Bool.or_eq_true, Bool.and_eq_true, decide_eq_true_eq, beq_iff_eq]
  omega

theorem testServer_spec (builtin : Registry) (cfg : MCPServersConfig) (id : String)
    (fr : FetchOutcome) :
    (resolveServer builtin cfg id = none →
      testServer builtin cfg id fr =
        { status := 404, success := false, error := some "Server not found",
          message := none })
    ∧ (∀ n u hd, resolveServer builtin cfg id = some (.http n u hd) →
        (∀ code, fr = .status code →
          ((testServer builtin cfg id fr).success = true ↔
              (200 ≤ code ∧ code ≤ 299) ∨ code = 404 ∨ code = 405)
          ∧ (testServer builtin cfg id fr).status = 200
          ∧ (¬((200 ≤ code ∧ code ≤ 299) ∨ code = 404 ∨ code = 405) →
              (testServer builtin cfg id fr).error
                = some ("Server returned status " ++ toString code)))
        ∧ (∀ msg, fr = .failure msg →
            testServer builtin cfg id fr =
              { status := 200, success := false, error := some msg, message := none }))
    ∧ (∀ n c a e, resolveServer builtin cfg id = some (.stdio n c a e) →
        testServer builtin cfg id fr =
          { status := 200, success := true, error := none,
            message := some "Stdio server configuration validated" }) := by
  refine ⟨?_, ?_, ?_⟩
  · intro h
    simp [testServer, h]
  · intro n u hd hres
    constructor
    · rintro code rfl
      by_cases hok : (200 ≤ code ∧ code ≤ 299) ∨ code = 404 ∨ code = 405
      · have htrue := (probe_ok_iff code).mpr hok
        refine ⟨?_, ?_, fun hcon => absurd hok hcon⟩
        · simp only [testServer, hres]
          simp [htrue, hok]
        · simp only [testServer, hres]
          simp [htrue]
      · have hfalse : (responseOk code || code == 404 || code == 405) = false :=
          Bool.eq_false_iff.mpr (fun hcon => hok ((probe_ok_iff code).mp hcon))
        refine ⟨?_, ?_, ?_⟩
        · simp only [testServer, hres]
          simp [hfalse, hok]
        · simp only [testServer, hres]
          simp [hfalse]
        · intro _
          simp only [testServer, hres]
          simp [hfalse]
    · rintro msg rfl
      simp [testServer, hres]
  · intro n c a e hres
    simp [testServer, hres]

/-- Witness for C6: probing a resolvable http record whose endpoint
answers 500 yields the failure payload with the code in the message. -/
theorem testServer_spec_witness :
    (testServer [("svc", MCPServerConfig.http none "https://svc" none)]
        { enabled := [], custom := [] } "svc" (FetchOutcome.status 500)).error
      = some ("Server returned status " ++ toString 500) :=
  (((testServer_spec [("svc", MCPServerConfig.http none "https://svc" none)]
      { enabled := [], custom := [] } "svc" (FetchOutcome.status 500)).2.1
    none "https://svc" none rfl).1 500 rfl).2.2 (by decide)

/-- When every check passes, `createServer` stores the variant record,
enables the id and saves. -/
theorem createServer_eq_of_pass (builtin : Registry) (cfg : MCPServersConfig) (b : CreateBody)
    (h1 : (falsyStr b.id || b.type.isNone) = false)
    (h2 : (b.type == some ConfigType.http && falsyStr b.url) = false)
    (h3 : (b.type == some ConfigType.stdio && falsyStr b.command) = false)
    (h4 : validId (b.id.getD "") = true)
    (h5 : (lookupKey builtin (b.id.getD "")).isSome = false)
    (h6 : (lookupKey cfg.custom (b.id.getD "")).isSome = false) :
    createServer builtin cfg b =
      .success { enabled := setKey cfg.enabled (b.id.getD "") true,
                 custom := setKey cfg.custom (b.id.getD "") (customConfigOf b) }
        (b.id.getD "") := by
  simp [createServer, h1, h2, h3, h4, h5, h6]

/-- C1: Create answers a 400 failure exactly under the spec's rejection
condition; otherwise it inserts the record into `custom`, sets
`enabled[id] = true`, leaves all other bindings unchanged, saves, and
responds `{success: true, id}`. -/
theorem createServer_spec (builtin : Registry) (cfg : MCPServersConfig) (b : CreateBody) :
    ((∃ msg, createServer builtin cfg b = .failure 400 msg) ↔
      createRejects builtin cfg b = true)
    ∧ (createRejects builtin cfg b = false →
        ∃ saved, createServer builtin cfg b = .success saved (b.id.getD "")
          ∧ lookupKey saved.custom (b.id.getD "") = some (customConfigOf b)
          ∧ lookupKey saved.enabled (b.id.getD "") = some true
          ∧ ∀ k, k ≠ b.id.getD "" →
              lookupKey saved.custom k = lookupKey cfg.custom k
              ∧ lookupKey saved.enabled k = lookupKey cfg.enabled k) := by
  have hmem1 : (lookupKey builtin (b.id.getD "")).isSome
      = decide ((b.id.getD "") ∈ builtin.map Prod.fst) := by
    by_cases hm : (b.id.getD "") ∈ builtin.map Prod.fst
    · simp [hm, (lookupKey_isSome_iff_mem _ _).mpr hm]
    · have hno : (lookupKey builtin (b.id.getD "")).isSome = false :=
        Bool.eq_false_iff.mpr (fun hc => hm ((lookupKey_isSome_iff_mem _ _).mp hc))
      simp [hm, hno]
  have hmem2 : (lookupKey cfg.custom (b.id.getD "")).isSome
      = decide ((b.id.getD "") ∈ cfg.custom.map Prod.fst) := by
    by_cases hm : (b.id.getD "") ∈ cfg.custom.map Prod.fst
    · simp [hm, (lookupKey_isSome_iff_mem _ _).mpr hm]
    · have hno : (lookupKey cfg.custom (b.id.getD "")).isSome = false :=
        Bool.eq_false_iff.mpr (fun hc => hm ((lookupKey_isSome_iff_mem _ _).mp hc))
      simp [hm, hno]
  cases hq1 : (falsyStr b.id || b.type.isNone) with
  | true =>
      refine ⟨⟨fun _ => by simp [createRejects, hq1],
        fun _ => ⟨"Missing required fields: id, type", by simp [createServer, hq1]⟩⟩,
        fun hf => ?_⟩
      simp [createRejects, hq1] at hf
  | false =>
  cases hq2 : (b.type == some ConfigType.http && falsyStr b.url) with
  | true =>
      refine ⟨⟨fun _ => by simp [createRejects, hq2],
        fun _ => ⟨"HTTP servers require a URL", by simp [createServer, hq1, hq2]⟩⟩,
        fun hf => ?_⟩
      simp [createRejects, hq2] at hf
  | false =>
  cases hq3 : (b.type == some ConfigType.stdio && falsyStr b.command) with
  | true =>
      refine ⟨⟨fun _ => by simp [createRejects, hq3],
        fun _ => ⟨"Stdio servers require a command",
          by simp [createServer, hq1, hq2, hq3]⟩⟩,
        fun hf => ?_⟩
      simp [createRejects, hq3] at hf
  | false =>
  cases hq4 : validId (b.id.getD "") with
  | false =>
      refine ⟨⟨fun _ => by simp [createRejects, hq4],
        fun _ => ⟨"Server ID must be lowercase alphanumeric with dashes",
          by simp [createServer, hq1, hq2, hq3, hq4]⟩⟩,
        fun hf => ?_⟩
      simp [createRejects, hq4] at hf
  | true =>
  cases hq5 : ((lookupKey builtin (b.id.getD "")).isSome
      || (lookupKey cfg.custom (b.id.getD "")).isSome) with
  | true =>
      refine ⟨⟨fun _ => by
          rcases Bool.or_eq_true_iff.mp hq5 with h | h <;>
            simp [createRejects, ← hmem1, ← hmem2, h],
        fun _ => ⟨"MCP server with this ID already exists",
          by simp [createServer, hq1, hq2, hq3, hq4, hq5]⟩⟩, fun hf => ?_⟩
      rcases Bool.or_eq_true_iff.mp hq5 with h | h <;>
        simp [createRejects, ← hmem1, ← hmem2, h] at hf
  | false =>
      obtain ⟨h5, h6⟩ := Bool.or_eq_false_iff.mp hq5
      have hpass := createServer_eq_of_pass builtin cfg b hq1 hq2 hq3 hq4 h5 h6
      refine ⟨⟨?_, ?_⟩, fun _ => ?_⟩
      · rintro ⟨msg, heq⟩
        rw [hpass] at heq
        cases heq
      · intro hr
        simp [createRejects, hq1, hq2, hq3, hq4, ← hmem1, ← hmem2, h5, h6] at hr
      · refine ⟨_, hpass, lookupKey_setKey_self _ _ _, lookupKey_setKey_self _ _ _, ?_⟩
        intro k hk
        exact ⟨lookupKey_setKey_ne _ _ _ _ hk, lookupKey_setKey_ne _ _ _ _ hk⟩

/-- Witness for C1: creating a colliding identifier is rejected with a
400 failure. -/
theorem createServer_spec_witness :
    createRejects [("web-search", MCPServerConfig.http none "https://w" none)]
        { enabled := [], custom := [] }
        { id := some "web-search", name := none, type := some ConfigType.http,
          url := some "https://x", headers := none, command := none, args := none,
          env := none } = true :=
  (createServer_spec [("web-search", MCPServerConfig.http none "https://w" none)]
      { enabled := [], custom := [] }
      { id := some "web-search", name := none, type := some ConfigType.http,
        url := some "https://x", headers := none, command := none, args := none,
        env := none }).1.mp ⟨"MCP server with this ID already exists", by decide⟩

/-- C10: a successful Create stores exactly the fields of the declared
variant: for http only name, url and headers (the stored record is the
http constructor, and supplied command, args or env neither appear in it
nor change the outcome); symmetrically for stdio with url and headers. -/
theorem create_variant_fields_spec (builtin : Registry) (cfg : MCPServersConfig)
    (b : CreateBody) (saved : MCPServersConfig) (sid : String)
    (h : createServer builtin cfg b = .success saved sid) :
    (b.type = some ConfigType.http →
      lookupKey saved.custom sid = some (.http b.name (b.url.getD "") b.headers)
      ∧ ∀ c a e, createServer builtin cfg { b with command := c, args := a, env := e }
            = .success saved sid)
    ∧ (b.type = some ConfigType.stdio →
      lookupKey saved.custom sid = some (.stdio b.name (b.command.getD "") b.args b.env)
      ∧ ∀ u hd, createServer builtin cfg { b with url := u, headers := hd }
            = .success saved sid) := by
  unfold createServer at h
  split_ifs at h with h1 h2 h3 h4 h5
  have g1 : (falsyStr b.id || b.type.isNone) = false := Bool.eq_false_iff.mpr h1
  have g2 : (b.type == some ConfigType.http && falsyStr b.url) = false :=
    Bool.eq_false_iff.mpr h2
  have g3 : (b.type == some ConfigType.stdio && falsyStr b.command) = false :=
    Bool.eq_false_iff.mpr h3
  have g4 : validId (b.id.getD "") = true := by simpa using h4
  have g5 : ((lookupKey builtin (b.id.getD "")).isSome
      || (lookupKey cfg.custom (b.id.getD "")).isSome) = false :=
    Bool.eq_false_iff.mpr h5
  obtain ⟨g5a, g5b⟩ := Bool.or_eq_false_iff.mp g5
  injection h with hs hid
  subst hs
  subst hid
  constructor
  · intro ht
    constructor
    · rw [lookupKey_setKey_self]
      simp [customConfigOf, ht]
    · intro c a e
      rw [createServer_eq_of_pass builtin cfg { b with command := c, args := a, env := e }
            (by simpa using g1) (by simpa using g2) (by simp [ht])
            (by simpa using g4) (by simpa using g5a) (by simpa using g5b)]
      simp [customConfigOf, ht]
  · intro ht
    constructor
    · rw [lookupKey_setKey_self]
      simp [customConfigOf, ht]
    · intro u hd
      rw [createServer_eq_of_pass builtin cfg { b with url := u, headers := hd }
            (by simpa using g1) (by simp [ht]) (by simpa using g3)
            (by simpa using g4) (by simpa using g5a) (by simpa using g5b)]
      simp [customConfigOf, ht]

/-- Witness for C10: a concrete successful http create stores only the
http fields even though a junk command was supplied. -/
theorem create_variant_fields_spec_witness :
    lookupKey (MCPServersConfig.custom
        { enabled := [("my-tool", true)],
          custom := [("my-tool", MCPServerConfig.http none "https://x" none)] }) "my-tool"
      = some (.http none "https://x" none) :=
  ((create_variant_fields_spec [] { enabled := [], custom := [] }
      { id := some "my-tool", name := none, type := some ConfigType.http,
        url := some "https://x", headers := none, command := some "junk",
        args := none, env := none }
      { enabled := [("my-tool", true)],
        custom := [("my-tool", MCPServerConfig.http none "https://x" none)] }
      "my-tool" (by decide)).1 rfl).1

/-- C3 counterexample: for a built-in record carrying the non-empty
explicit name "Explicit Name" under identifier "alpha", the listing shows
"Alpha" (the humanized identifier), not the explicit name the claim's
priority chain requires. -/
theorem builtin_name_counterexample :
    ((getAllServers
        [("alpha", MCPServerConfig.http (some "Explicit Name") "https://a" none)]
        { enabled := [], custom := [] }).map (fun d => d.name)) = ["Alpha"]
    ∧ ("Alpha" : String) ≠ "Explicit Name" := by
  constructor
  · decide
  · decide

/-- C3 amended: the display name of every built-in descriptor is always
the humanized form of its identifier; any explicit name in the built-in
config record is ignored. -/
theorem builtin_name_humanized (builtin : Registry) (cfg : MCPServersConfig) :
    ∀ d ∈ getAllServers builtin cfg, d.builtin = true → d.name = humanize d.id := by
  intro d hd hb
  simp only [getAllServers, List.mem_append, List.mem_map] at hd
  rcases hd with ⟨p, _, rfl⟩ | ⟨p, _, rfl⟩
  · rfl
  · simp [customDescriptor] at hb

/-- Witness for C3 at a concrete registry whose record has an explicit
name. -/
theorem builtin_name_humanized_witness :
    (builtinDescriptor { enabled := [], custom := [] }
        ("web-api", MCPServerConfig.stdio (some "Ignored") "run" none none)).name
      = humanize (builtinDescriptor { enabled := [], custom := [] }
        ("web-api", MCPServerConfig.stdio (some "Ignored") "run" none none)).id :=
  builtin_name_humanized
    [("web-api", MCPServerConfig.stdio (some "Ignored") "run" none none)]
    { enabled := [], custom := [] } _ (by simp [getAllServers]) rfl

end MCP
